import Mathlib

/-!
Shallow embedding of the `uid_store` crate (src/lib.rs, src/random.rs).

Machine integers are modelled as `Nat` with explicit `% 2^64` (resp. `% 2^32`,
`% 2^128`) at the operations where Rust wrapping/truncation occurs.  The wall
clock read by the PRNG's lazy seeding (`SystemTime::now()` in
`PseudoRandom::seed`) is modelled as an explicit parameter `now : Nat`; the
`Err(_) => 0` fallback corresponds to `now = 0`.  Since the store and the
generators are sequential code threading the global PRNG state through every
draw, they are embedded in state-passing style, and the unbounded retry loops
of `UidStore` are indexed by explicit fuel, returning `none` on exhaustion.
-/

/-- State of `PseudoRandom` (src/random.rs): four 64-bit words `s[0]..s[3]`,
here fields `s0..s3`, each kept below `2^64` by the operations. -/
structure PseudoRandom where
  s0 : Nat
  s1 : Nat
  s2 : Nat
  s3 : Nat
  deriving DecidableEq, Repr

/-- 64-bit rotate left, as Rust `u64::rotate_left` for `0 < k < 64`. -/
def rotl64 (x k : Nat) : Nat :=
  (((x % 2^64) <<< k) % 2^64) ||| ((x % 2^64) >>> (64 - k))

/-- `PseudoRandom::seed` (src/random.rs lines 11-22): derive the four words
from the current time in nanoseconds (`now`, a `u128`); the multiplication
`now * 50000` wraps at `2^128` and every word is truncated `as u64`. -/
def PseudoRandom.seed (now : Nat) : PseudoRandom :=
  { s0 := (now ^^^ 4690481050117892527) % 2^64
    s1 := (((now * 50000) % 2^128) ^^^ 13682126131931052725) % 2^64
    s2 := (now ^^^ 9639264971936262885) % 2^64
    s3 := (now ^^^ 6412797481073129502) % 2^64 }

/-- `PseudoRandom::next_u64` (src/random.rs lines 25-38): seed when `s[0] == 0`,
then the xoshiro256** output and state transition, all wrapping at `2^64`. -/
def PseudoRandom.next_u64 (now : Nat) (p : PseudoRandom) : Nat × PseudoRandom :=
  let p := if p.s0 = 0 then PseudoRandom.seed now else p
  let next := (rotl64 ((p.s1 * 5) % 2^64) 7 * 9) % 2^64
  let v := (p.s1 <<< 17) % 2^64
  let s2 := p.s2 ^^^ p.s0
  let s3 := p.s3 ^^^ p.s1
  let s1 := p.s1 ^^^ s2
  let s0 := p.s0 ^^^ s3
  let s2 := s2 ^^^ v
  let s3 := rotl64 s3 45
  (next, { s0 := s0, s1 := s1, s2 := s2, s3 := s3 })

/-- `PseudoRandom::next_u32` (src/random.rs lines 41-43): a `next_u64` draw
shifted right by 32 and truncated `as u32`. -/
def PseudoRandom.next_u32 (now : Nat) (p : PseudoRandom) : Nat × PseudoRandom :=
  let r := PseudoRandom.next_u64 now p
  (r.1 >>> 32, r.2)

/-- The PRNG step exactly as the spec words it (spec section 4.1, steps 2-3):
`output = rotate_left(s1 * 5, 7) * 9`; then
`t = s1 << 17; s2 ^= s0; s3 ^= s1; s1 ^= s2; s0 ^= s3; s2 ^= t;
s3 = rotate_left(s3, 45)`.  Stated separately from `PseudoRandom.next_u64`
so that the code's draw (with its seeding guard) can be compared against it. -/
def specDraw64 (p : PseudoRandom) : Nat × PseudoRandom :=
  let output := (rotl64 ((p.s1 * 5) % 2^64) 7 * 9) % 2^64
  let t := (p.s1 <<< 17) % 2^64
  let s2 := p.s2 ^^^ p.s0
  let s3 := p.s3 ^^^ p.s1
  let s1 := p.s1 ^^^ s2
  let s0 := p.s0 ^^^ s3
  let s2 := s2 ^^^ t
  let s3 := rotl64 s3 45
  (output, { s0 := s0, s1 := s1, s2 := s2, s3 := s3 })

/-- `CHARSET` (src/lib.rs lines 268-270). -/
def CHARSET : List Char :=
  "ABCDEFGHIJKLMNOPQRSTUVWXYZabcdefghijklmnopqrstuvwxyz0123456789".data

/-- `READABLE_CHARSET` (src/lib.rs lines 272-274). -/
def READABLE_CHARSET : List Char :=
  "ABCDEFGHJKMNPQRSTUVWXYZabcdefghjkmnpqrstuvwxyz123456789".data

/-- `NUMSET` (src/lib.rs line 276). -/
def NUMSET : List Char := "0123456789".data

/-- The digit loop of `number_to_uid` (src/lib.rs lines 219-223): for `uid > 0`
push `CHARSET[uid % 62]` and divide, least-significant digit first. -/
def toDigits : Nat → List Char
  | 0 => []
  | n + 1 =>
    CHARSET.getD ((n + 1) % CHARSET.length) 'A' :: toDigits ((n + 1) / CHARSET.length)
termination_by n => n
decreasing_by exact Nat.div_lt_self (Nat.succ_pos n) (by decide)

/-- `number_to_uid` (src/lib.rs lines 214-225): `0` maps to `"A"`, otherwise
the base-62 digits least-significant first. -/
def number_to_uid (uid : Nat) : String :=
  if uid = 0 then "A" else ⟨toDigits uid⟩

/-- The per-character branch of `uid_to_number` (src/lib.rs lines 240-249):
the value of one character, `none` for characters outside the three ranges. -/
def uid_digit (c : Char) : Option Nat :=
  if 'A' ≤ c ∧ c ≤ 'Z' then some (c.toNat - 'A'.toNat)
  else if 'a' ≤ c ∧ c ≤ 'z' then some (c.toNat - 'a'.toNat + 26)
  else if '0' ≤ c ∧ c ≤ '9' then some (c.toNat - '0'.toNat + 26 + 26)
  else none

/-- The accumulation loop of `uid_to_number` (src/lib.rs lines 232-251) over an
explicit character list: early `return None` on an invalid character, otherwise
`result = result * 62 + value` in wrapping `usize` (64-bit) arithmetic. -/
def uid_fold : List Char → Nat → Option Nat
  | [], result => some result
  | c :: rest, result =>
    match uid_digit c with
    | none => none
    | some value => uid_fold rest ((result * 62 + value) % 2^64)

/-- `uid_to_number` (src/lib.rs lines 230-253): fold over `uid.chars().rev()`
starting from `0`. -/
def uid_to_number (uid : String) : Option Nat :=
  uid_fold uid.data.reverse 0

/-- The character loop shared in shape by `random_string`, `random_number` and
`human_random_string` (src/lib.rs lines 178-183, 190-195, 258-263): one
`next_u32` draw per character, reduced modulo the charset length, characters
produced left to right. -/
def buildChars (now : Nat) (charset : List Char) : Nat → PseudoRandom → List Char × PseudoRandom
  | 0, p => ([], p)
  | n + 1, p =>
    let vp := PseudoRandom.next_u32 now p
    let c := charset.getD (vp.1 % charset.length) 'A'
    let rest := buildChars now charset n vp.2
    (c :: rest.1, rest.2)

/-- `random_string` (src/lib.rs lines 177-186): fixed-length string over
`CHARSET`. -/
def random_string (now length : Nat) (p : PseudoRandom) : String × PseudoRandom :=
  let r := buildChars now CHARSET length p
  (⟨r.1⟩, r.2)

/-- `random_number` (src/lib.rs lines 189-198): fixed-length string over
`NUMSET`. -/
def random_number (now length : Nat) (p : PseudoRandom) : String × PseudoRandom :=
  let r := buildChars now NUMSET length p
  (⟨r.1⟩, r.2)

/-- `human_random_string` (src/lib.rs lines 257-266): fixed-length string over
`READABLE_CHARSET`. -/
def human_random_string (now length : Nat) (p : PseudoRandom) : String × PseudoRandom :=
  let r := buildChars now READABLE_CHARSET length p
  (⟨r.1⟩, r.2)

/-- `random_max_size` (src/lib.rs lines 202-209): a `next_u64` draw reduced
modulo `maximum_size` when `maximum_size > u32::MAX`, otherwise a `next_u32`
draw reduced modulo `maximum_size`, base62-encoded. -/
def random_max_size (now maximum_size : Nat) (p : PseudoRandom) : String × PseudoRandom :=
  if maximum_size > 4294967295 then
    let r := PseudoRandom.next_u64 now p
    (number_to_uid (r.1 % maximum_size), r.2)
  else
    let r := PseudoRandom.next_u32 now p
    (number_to_uid (r.1 % maximum_size), r.2)

/-- `UidStore` (src/lib.rs lines 72-75): a set of previously issued strings
(`HashSet<String>` modelled as `Finset String`). -/
structure UidStore where
  items : Finset String
  deriving DecidableEq

/-- `UidStore::new` (src/lib.rs lines 78-82). -/
def UidStore.new : UidStore := ⟨∅⟩

/-- `UidStore::contains` (src/lib.rs lines 144-146). -/
def UidStore.contains (u : UidStore) (id : String) : Bool := id ∈ u.items

/-- `UidStore.size` (src/lib.rs lines 149-151). -/
def UidStore.size (u : UidStore) : Nat := u.items.card

/-- The retry loop shared by every `UidStore::next*` method
(src/lib.rs lines 86-92 and the analogous loops): generate a candidate, retry
while it is already present, otherwise insert it and return it.  The unbounded
`loop` is indexed by fuel; `none` means the fuel ran out. -/
def issueLoop (gen : PseudoRandom → String × PseudoRandom) :
    Nat → UidStore → PseudoRandom → Option (String × UidStore × PseudoRandom)
  | 0, _, _ => none
  | fuel + 1, u, p =>
    let r := gen p
    if r.1 ∈ u.items then issueLoop gen fuel u r.2
    else some (r.1, ⟨insert r.1 u.items⟩, r.2)

/-- `UidStore::next` (src/lib.rs lines 85-93). -/
def UidStore.next (now fuel length : Nat) (u : UidStore) (p : PseudoRandom) :
    Option (String × UidStore × PseudoRandom) :=
  issueLoop (random_string now length) fuel u p

/-- `UidStore::next_human` (src/lib.rs lines 97-105). -/
def UidStore.next_human (now fuel length : Nat) (u : UidStore) (p : PseudoRandom) :
    Option (String × UidStore × PseudoRandom) :=
  issueLoop (human_random_string now length) fuel u p

/-- `UidStore::next_u16` (src/lib.rs lines 109-117): retry loop over
`random_max_size(u16::MAX as usize)`. -/
def UidStore.next_u16 (now fuel : Nat) (u : UidStore) (p : PseudoRandom) :
    Option (String × UidStore × PseudoRandom) :=
  issueLoop (random_max_size now 65535) fuel u p

/-- `UidStore::next_u32` (src/lib.rs lines 121-129): retry loop over
`random_max_size(u32::MAX as usize)`. -/
def UidStore.next_u32 (now fuel : Nat) (u : UidStore) (p : PseudoRandom) :
    Option (String × UidStore × PseudoRandom) :=
  issueLoop (random_max_size now 4294967295) fuel u p

/-- `UidStore::next_u64` (src/lib.rs lines 133-141): retry loop over
`random_max_size(u64::MAX as usize)`. -/
def UidStore.next_u64 (now fuel : Nat) (u : UidStore) (p : PseudoRandom) :
    Option (String × UidStore × PseudoRandom) :=
  issueLoop (random_max_size now 18446744073709551615) fuel u p

/-- `UidStore::make_unique` (src/lib.rs lines 156-162): a present candidate is
replaced by `self.next(uid.len())`; an absent candidate is inserted and `None`
(modelled as the inner `none`) is returned.  The outer `Option` is fuel
exhaustion of the inner retry loop. -/
def UidStore.make_unique (now fuel : Nat) (uid : String) (u : UidStore) (p : PseudoRandom) :
    Option (Option String × UidStore × PseudoRandom) :=
  if uid ∈ u.items then
    match UidStore.next now fuel uid.length u p with
    | some r => some (some r.1, r.2.1, r.2.2)
    | none => none
  else some (none, ⟨insert uid u.items⟩, p)

/-- One generation request against the store: the five `issue_*` entry points. -/
inductive IssueOp where
  | fixedLen : Nat → IssueOp
  | humanLen : Nat → IssueOp
  | bounded16 : IssueOp
  | bounded32 : IssueOp
  | bounded64 : IssueOp
  deriving DecidableEq, Repr

/-- The candidate generator each `issue_*` entry point feeds to its retry loop. -/
def IssueOp.gen (now : Nat) : IssueOp → PseudoRandom → String × PseudoRandom
  | .fixedLen length => random_string now length
  | .humanLen length => human_random_string now length
  | .bounded16 => random_max_size now 65535
  | .bounded32 => random_max_size now 4294967295
  | .bounded64 => random_max_size now 18446744073709551615

/-- A sequence of `issue_*` calls against one store, collecting the returned
strings; `none` as soon as one call exhausts its fuel. -/
def runIssues (now fuel : Nat) : List IssueOp → UidStore → PseudoRandom →
    Option (List String × UidStore × PseudoRandom)
  | [], u, p => some ([], u, p)
  | op :: ops, u, p =>
    match issueLoop (op.gen now) fuel u p with
    | none => none
    | some r =>
      match runIssues now fuel ops r.2.1 r.2.2 with
      | none => none
      | some rest => some (r.1 :: rest.1, rest.2)

/-! ## Helper lemmas -/

theorem uid_fold_append (l1 l2 : List Char) (r : Nat) :
    uid_fold (l1 ++ l2) r = Option.bind (uid_fold l1 r) (fun x => uid_fold l2 x) := by
  induction l1 generalizing r with
  | nil => rfl
  | cons c cs ih =>
    simp only [List.cons_append, uid_fold]
    cases uid_digit c with
    | none => rfl
    | some v => exact ih _

theorem uid_digit_charset : ∀ i : Fin 62, uid_digit (CHARSET.getD i.1 'A') = some i.1 := by
  decide

theorem uid_fold_toDigits (n : Nat) (hn : n < 2^64) :
    uid_fold (toDigits n).reverse 0 = some n := by
  induction n using Nat.strong_induction_on with
  | _ n ih =>
    match n with
    | 0 => simp only [toDigits, List.reverse_nil, uid_fold]
    | m + 1 =>
      have hdiv : (m + 1) / 62 < m + 1 := Nat.div_lt_self (Nat.succ_pos m) (by decide)
      have hlen : CHARSET.length = 62 := rfl
      rw [toDigits, hlen, List.reverse_cons, uid_fold_append,
        ih ((m + 1) / 62) hdiv (lt_of_le_of_lt (Nat.le_of_lt hdiv) hn)]
      have hmod : (m + 1) % 62 < 62 := Nat.mod_lt _ (by decide)
      have hd := uid_digit_charset ⟨(m + 1) % 62, hmod⟩
      simp only [Option.bind, uid_fold, hd]
      have heq : (m + 1) / 62 * 62 + (m + 1) % 62 = m + 1 := by
        have := Nat.div_add_mod (m + 1) 62
        omega
      rw [heq, Nat.mod_eq_of_lt hn]

theorem uid_roundtrip (n : Nat) (hn : n < 2^64) :
    uid_to_number (number_to_uid n) = some n := by
  by_cases h0 : n = 0
  · subst h0; rfl
  · rw [number_to_uid, if_neg h0]
    exact uid_fold_toDigits n hn

theorem uid_fold_invalid (l : List Char) (c : Char) (hnone : uid_digit c = none) :
    ∀ r : Nat, c ∈ l → uid_fold l r = none := by
  induction l with
  | nil => intro r hc; cases hc
  | cons d ds ih =>
    intro r hc
    simp only [uid_fold]
    rcases List.mem_cons.mp hc with h | h
    · subst h; rw [hnone]
    · cases hd : uid_digit d with
      | none => rfl
      | some v => exact ih _ h

theorem buildChars_length (now : Nat) (cs : List Char) (n : Nat) (p : PseudoRandom) :
    (buildChars now cs n p).1.length = n := by
  induction n generalizing p with
  | zero => rfl
  | succ m ih => simp only [buildChars, List.length_cons, ih]

theorem random_string_length (now length : Nat) (p : PseudoRandom) :
    (random_string now length p).1.length = length :=
  buildChars_length now CHARSET length p

theorem random_number_length (now length : Nat) (p : PseudoRandom) :
    (random_number now length p).1.length = length :=
  buildChars_length now NUMSET length p

theorem human_random_string_length (now length : Nat) (p : PseudoRandom) :
    (human_random_string now length p).1.length = length :=
  buildChars_length now READABLE_CHARSET length p

theorem issueLoop_some (gen : PseudoRandom → String × PseudoRandom) (fuel : Nat)
    (u : UidStore) (p : PseudoRandom) (res : String × UidStore × PseudoRandom)
    (h : issueLoop gen fuel u p = some res) :
    res.1 ∉ u.items ∧ res.2.1.items = insert res.1 u.items ∧ ∃ q, res.1 = (gen q).1 := by
  induction fuel generalizing p with
  | zero => cases h
  | succ m ih =>
    simp only [issueLoop] at h
    by_cases hm : (gen p).1 ∈ u.items
    · rw [if_pos hm] at h
      exact ih (gen p).2 h
    · rw [if_neg hm] at h
      cases h
      exact ⟨hm, rfl, ⟨p, rfl⟩⟩

theorem next_u64_fst_lt (now : Nat) (p : PseudoRandom) :
    (PseudoRandom.next_u64 now p).1 < 2^64 := by
  simp only [PseudoRandom.next_u64]
  exact Nat.mod_lt _ (by decide)

theorem next_u32_fst_lt (now : Nat) (p : PseudoRandom) :
    (PseudoRandom.next_u32 now p).1 < 2^32 := by
  have h := next_u64_fst_lt now p
  simp only [PseudoRandom.next_u32, Nat.shiftRight_eq_div_pow]
  exact Nat.div_lt_of_lt_mul (by norm_num at h ⊢; omega)

theorem random_max_size_decode (now m : Nat) (hm : 0 < m) (p : PseudoRandom) :
    ∃ v, uid_to_number (random_max_size now m p).1 = some v ∧ v < m := by
  by_cases h : m > 4294967295
  · refine ⟨(PseudoRandom.next_u64 now p).1 % m, ?_, Nat.mod_lt _ hm⟩
    simp only [random_max_size, if_pos h]
    exact uid_roundtrip _ (lt_of_le_of_lt (Nat.mod_le _ _) (next_u64_fst_lt now p))
  · refine ⟨(PseudoRandom.next_u32 now p).1 % m, ?_, Nat.mod_lt _ hm⟩
    simp only [random_max_size, if_neg h]
    exact uid_roundtrip _
      (lt_of_le_of_lt (Nat.mod_le _ _) (lt_trans (next_u32_fst_lt now p) (by norm_num)))

theorem issueLoop_decode_bound (now fuel m : Nat) (hm : 0 < m) (u : UidStore)
    (p : PseudoRandom) (res : String × UidStore × PseudoRandom)
    (h : issueLoop (random_max_size now m) fuel u p = some res) :
    ∃ v, uid_to_number res.1 = some v ∧ v < m := by
  obtain ⟨-, -, q, hq⟩ := issueLoop_some _ fuel u p res h
  rw [hq]
  exact random_max_size_decode now m hm q

theorem runIssues_spec (now fuel : Nat) (ops : List IssueOp) (u : UidStore)
    (p : PseudoRandom) (res : List String × UidStore × PseudoRandom)
    (h : runIssues now fuel ops u p = some res) :
    u.items ⊆ res.2.1.items ∧
    res.2.1.items.card = u.items.card + res.1.length ∧
    res.1.Nodup ∧
    (∀ r ∈ res.1, r ∈ res.2.1.items) ∧
    (∀ r ∈ res.1, r ∉ u.items) ∧
    res.1.length = ops.length := by
  induction ops generalizing u p res with
  | nil =>
    simp only [runIssues] at h
    cases h
    exact ⟨Finset.Subset.refl _, rfl, List.nodup_nil, by simp, by simp, rfl⟩
  | cons op ops ih =>
    simp only [runIssues] at h
    cases h1 : issueLoop (op.gen now) fuel u p with
    | none => rw [h1] at h; cases h
    | some r =>
      rw [h1] at h
      dsimp only at h
      cases h2 : runIssues now fuel ops r.2.1 r.2.2 with
      | none => rw [h2] at h; cases h
      | some rest =>
        rw [h2] at h
        dsimp only at h
        cases h
        obtain ⟨hr1, hr2, -⟩ := issueLoop_some _ fuel u p r h1
        obtain ⟨ih1, ih2, ih3, ih4, ih5, ih6⟩ := ih r.2.1 r.2.2 rest h2
        rw [hr2] at ih1 ih2 ih5
        refine ⟨?_, ?_, ?_, ?_, ?_, ?_⟩
        · exact fun x hx => ih1 (Finset.mem_insert_of_mem hx)
        · rw [ih2, Finset.card_insert_of_not_mem hr1, List.length_cons]
          omega
        · refine List.nodup_cons.mpr ⟨?_, ih3⟩
          intro hmem
          exact (ih5 r.1 hmem) (Finset.mem_insert_self _ _)
        · intro x hx
          rcases List.mem_cons.mp hx with rfl | hx
          · exact ih1 (Finset.mem_insert_self _ _)
          · exact ih4 x hx
        · intro x hx
          rcases List.mem_cons.mp hx with rfl | hx
          · exact hr1
          · exact fun hxu => ih5 x hx (Finset.mem_insert_of_mem hxu)
        · simpa using ih6

/-! ## Claims -/

/-- C1: Base62 round-trip: for every non-negative integer `n` (every `usize`
value, so in particular every `n` up to `2^32`), decoding the encoding of `n`
yields `some n`; moreover `number_to_uid 0 = "A"`, `uid_to_number "A" = some 0`
and `uid_to_number "B" = some 1`. -/
theorem base62_roundtrip :
    (∀ n : Nat, n < 2^64 → uid_to_number (number_to_uid n) = some n) ∧
    number_to_uid 0 = "A" ∧ uid_to_number "A" = some 0 ∧ uid_to_number "B" = some 1 :=
  ⟨fun n hn => uid_roundtrip n hn, rfl, by decide, by decide⟩

theorem base62_roundtrip_check :
    uid_to_number (number_to_uid 4294967296) = some 4294967296 :=
  base62_roundtrip.1 4294967296 (by norm_num)

/-- C2 counterexample: the claim says `uid_to_number ""` and
`uid_to_number "!@#"` both return `none`, but the empty string decodes to
`some 0` (the accumulation loop runs zero iterations), so the claimed
conjunction is false. -/
theorem decode_rejection_cex :
    ¬(uid_to_number "" = none ∧ uid_to_number "!@#" = none) := by
  decide

/-- C2 (amended): `uid_to_number ""` returns `some 0`, not `none`;
`uid_to_number "!@#"` returns `none`; and decoding fails with `none` whenever
any character of the input falls outside the three recognized ranges
`A`-`Z`, `a`-`z`, `0`-`9`. -/
theorem decode_rejection_amended :
    uid_to_number "" = some 0 ∧ uid_to_number "!@#" = none ∧
    ∀ (s : String) (c : Char), c ∈ s.data → uid_digit c = none →
      uid_to_number s = none := by
  refine ⟨by decide, by decide, fun s c hc hnone => ?_⟩
  exact uid_fold_invalid s.data.reverse c hnone 0 (List.mem_reverse.mpr hc)

theorem decode_rejection_check : uid_to_number "ab$" = none :=
  decode_rejection_amended.2.2 "ab$" '$' (by decide) (by decide)

/-- C3 (code bug): the human-readable alphabet `READABLE_CHARSET` has 55
symbols, not 50, and it contains the confusable character `'1'` even though
the doc comments of `human_random_string` and `UidStore::next_human` say `1`
is excluded; concretely `human_random_string` produces the string `"1"` from
the PRNG state `(1, 34300087, 0, 0)`. -/
theorem readable_charset_contains_one :
    READABLE_CHARSET.length = 55 ∧ '1' ∈ READABLE_CHARSET ∧
    (human_random_string 0 1 ⟨1, 34300087, 0, 0⟩).1 = "1" := by
  refine ⟨rfl, by decide, by decide⟩

/-- C4 counterexample: the claim says seeding happens only when the state is
all-zero, i.e. a state with any non-zero word is never re-seeded; but on the
state `(0, 1, 0, 0)` (second word non-zero) the draw does not perform the
plain xoshiro step — the seeding routine runs because the first word is 0. -/
theorem seeding_on_nonzero_word :
    PseudoRandom.next_u64 0 ⟨0, 1, 0, 0⟩ ≠ specDraw64 ⟨0, 1, 0, 0⟩ := by
  decide

/-- C4 (amended): the seeding guard tests only the first state word: a draw
re-seeds exactly when `s0 = 0`, regardless of the other words; whenever
`s0 ≠ 0` the draw is the plain xoshiro step with no seeding, and whenever
`s0 = 0` the draw is the step applied to the freshly seeded state. -/
theorem seed_guard_first_word (now : Nat) (p : PseudoRandom) :
    (p.s0 ≠ 0 → PseudoRandom.next_u64 now p = specDraw64 p) ∧
    (p.s0 = 0 → PseudoRandom.next_u64 now p = specDraw64 (PseudoRandom.seed now)) := by
  constructor
  · intro h
    simp only [PseudoRandom.next_u64, specDraw64, if_neg h]
  · intro h
    simp only [PseudoRandom.next_u64, specDraw64, if_pos h]

theorem seed_guard_first_word_check :
    PseudoRandom.next_u64 0 ⟨1, 2, 3, 4⟩ = specDraw64 ⟨1, 2, 3, 4⟩ ∧
    PseudoRandom.next_u64 9 ⟨0, 7, 7, 7⟩ = specDraw64 (PseudoRandom.seed 9) :=
  ⟨(seed_guard_first_word 0 ⟨1, 2, 3, 4⟩).1 (by decide),
   (seed_guard_first_word 9 ⟨0, 7, 7, 7⟩).2 rfl⟩

/-- C5: `make_unique`: an absent candidate is inserted and the inner `none`
("no replacement needed") is returned, growing the set by one; a present
candidate makes the store issue a fresh identifier of the same length via
the fixed-length retry loop, insert it, and return it, and the replacement
differs from the candidate while the size grows by exactly one. -/
theorem make_unique_replaces (now fuel : Nat) (uid : String) (u : UidStore)
    (p : PseudoRandom) :
    (uid ∉ u.items →
      UidStore.make_unique now fuel uid u p = some (none, ⟨insert uid u.items⟩, p) ∧
      (insert uid u.items).card = u.items.card + 1) ∧
    (uid ∈ u.items →
      ∀ res, UidStore.make_unique now fuel uid u p = some res →
        ∀ r, res.1 = some r →
          r ≠ uid ∧ r.length = uid.length ∧ r ∈ res.2.1.items ∧
          res.2.1.size = u.size + 1 ∧ u.items ⊆ res.2.1.items) := by
  constructor
  · intro h
    refine ⟨?_, Finset.card_insert_of_not_mem h⟩
    simp only [UidStore.make_unique, if_neg h]
  · intro h res hmu r hr
    simp only [UidStore.make_unique, if_pos h] at hmu
    cases hn : UidStore.next now fuel uid.length u p with
    | none => rw [hn] at hmu; cases hmu
    | some t =>
      rw [hn] at hmu
      dsimp only at hmu
      cases hmu
      obtain ⟨ht1, ht2, q, hq⟩ := issueLoop_some _ fuel u p t hn
      have hrt : r = t.1 := by
        symm at hr
        exact Option.some.inj hr
      subst hrt
      refine ⟨fun e => ht1 (e ▸ h), ?_, ?_, ?_, ?_⟩
      · rw [hq]
        exact random_string_length now uid.length q
      · rw [ht2]
        exact Finset.mem_insert_self _ _
      · show t.2.1.items.card = u.items.card + 1
        rw [ht2]
        exact Finset.card_insert_of_not_mem ht1
      · rw [ht2]
        exact Finset.subset_insert _ _

theorem make_unique_replaces_check :
    "AAA" ≠ "XYZ" ∧ "AAA".length = "XYZ".length ∧
    "AAA" ∈ (insert "AAA" {"XYZ"} : Finset String) ∧
    (⟨insert "AAA" {"XYZ"}⟩ : UidStore).size = (⟨{"XYZ"}⟩ : UidStore).size + 1 ∧
    ({"XYZ"} : Finset String) ⊆ insert "AAA" {"XYZ"} :=
  (make_unique_replaces 0 5 "XYZ" ⟨{"XYZ"}⟩ ⟨1, 2, 3, 4⟩).2 (by decide)
    (some "AAA", ⟨insert "AAA" {"XYZ"}⟩,
      ⟨211106635448322, 211106232532999, 211140593188866, 9223547958715220736⟩)
    (by decide) "AAA" rfl

/-- C6: `random_max_size` reduces a 64-bit draw modulo the bound when the
bound exceeds the 32-bit range and a 32-bit draw modulo the bound otherwise,
then base62-encodes the result; consequently every string issued by
`next_u16` decodes to a value at most `65535`, and the `next_u32`/`next_u64`
variants respect `4294967295` and `18446744073709551615`. -/
theorem bounded_issue_decodes (now fuel : Nat) (u : UidStore) (p : PseudoRandom) :
    (∀ m q, 4294967295 < m →
      random_max_size now m q =
        (number_to_uid ((PseudoRandom.next_u64 now q).1 % m),
          (PseudoRandom.next_u64 now q).2)) ∧
    (∀ m q, m ≤ 4294967295 →
      random_max_size now m q =
        (number_to_uid ((PseudoRandom.next_u32 now q).1 % m),
          (PseudoRandom.next_u32 now q).2)) ∧
    (∀ res, UidStore.next_u16 now fuel u p = some res →
      ∃ v, uid_to_number res.1 = some v ∧ v ≤ 65535) ∧
    (∀ res, UidStore.next_u32 now fuel u p = some res →
      ∃ v, uid_to_number res.1 = some v ∧ v ≤ 4294967295) ∧
    (∀ res, UidStore.next_u64 now fuel u p = some res →
      ∃ v, uid_to_number res.1 = some v ∧ v ≤ 18446744073709551615) := by
  refine ⟨?_, ?_, ?_, ?_, ?_⟩
  · intro m q hm
    simp only [random_max_size, if_pos hm]
  · intro m q hm
    simp only [random_max_size, if_neg (not_lt.mpr hm)]
  · intro res h
    obtain ⟨v, hv, hlt⟩ := issueLoop_decode_bound now fuel 65535 (by decide) u p res h
    exact ⟨v, hv, by omega⟩
  · intro res h
    obtain ⟨v, hv, hlt⟩ := issueLoop_decode_bound now fuel 4294967295 (by decide) u p res h
    exact ⟨v, hv, by omega⟩
  · intro res h
    obtain ⟨v, hv, hlt⟩ :=
      issueLoop_decode_bound now fuel 18446744073709551615 (by decide) u p res h
    exact ⟨v, hv, by omega⟩

theorem bounded_issue_decodes_check :
    ∃ v, uid_to_number "A" = some v ∧ v ≤ 65535 :=
  (bounded_issue_decodes 0 5 UidStore.new ⟨1, 2, 3, 4⟩).2.2.1
    ("A", ⟨insert "A" ∅⟩, ⟨7, 0, 262146, 211106232532992⟩) (by decide)

/-- C7: for every state the seeding guard leaves alone (first word non-zero,
the code's operational notion of "seeded"), `next_u64` performs exactly the
spec's step — output `rotate_left(s1 * 5, 7) * 9` and the
`t = s1 << 17; s2 ^= s0; s3 ^= s1; s1 ^= s2; s0 ^= s3; s2 ^= t;
s3 = rotate_left(s3, 45)` state update, in wrapping 64-bit arithmetic — and
`next_u32` returns the top 32 bits of that `next_u64` output. -/
theorem draw_step_formula (now : Nat) (p : PseudoRandom) (h : p.s0 ≠ 0) :
    PseudoRandom.next_u64 now p = specDraw64 p ∧
    (PseudoRandom.next_u32 now p).1 = (PseudoRandom.next_u64 now p).1 >>> 32 := by
  refine ⟨?_, rfl⟩
  simp only [PseudoRandom.next_u64, specDraw64, if_neg h]

theorem draw_step_formula_check :
    PseudoRandom.next_u64 3 ⟨5, 6, 7, 8⟩ = specDraw64 ⟨5, 6, 7, 8⟩ ∧
    (PseudoRandom.next_u32 3 ⟨5, 6, 7, 8⟩).1 =
      (PseudoRandom.next_u64 3 ⟨5, 6, 7, 8⟩).1 >>> 32 :=
  draw_step_formula 3 ⟨5, 6, 7, 8⟩ (by decide)

/-- C8: store uniqueness invariant: over any sequence of successful `issue_*`
calls the store only grows, every returned string is in the final set, the
returned strings are pairwise distinct, and on a fresh store `size` equals
the number of calls. -/
theorem issue_calls_unique (now fuel : Nat) (ops : List IssueOp) (u : UidStore)
    (p : PseudoRandom) (res : List String × UidStore × PseudoRandom)
    (h : runIssues now fuel ops u p = some res) :
    u.items ⊆ res.2.1.items ∧
    (∀ r ∈ res.1, r ∈ res.2.1.items) ∧
    res.1.Nodup ∧
    res.1.length = ops.length ∧
    res.2.1.size = u.size + res.1.length ∧
    (u = UidStore.new → res.2.1.size = ops.length) := by
  obtain ⟨h1, h2, h3, h4, h5, h6⟩ := runIssues_spec now fuel ops u p res h
  refine ⟨h1, h4, h3, h6, h2, ?_⟩
  intro hu
  subst hu
  show res.2.1.items.card = ops.length
  rw [h2, ← h6]
  simp [UidStore.new]

theorem issue_calls_unique_check :
    (["AA", "A", "5hS"] : List String).Nodup ∧
    (⟨insert "5hS" (insert "A" (insert "AA" ∅))⟩ : UidStore).size = 3 := by
  have h := issue_calls_unique 0 5 [.fixedLen 2, .bounded16, .humanLen 3]
    UidStore.new ⟨1, 2, 3, 4⟩
    (["AA", "A", "5hS"], ⟨insert "5hS" (insert "A" (insert "AA" ∅))⟩,
      ⟨13862097262714618497, 31630836743406341, 13866636029399924743, 6931154176001016769⟩)
    (by decide)
  exact ⟨h.2.2.1, h.2.2.2.2.2 rfl⟩

/-- C9: length contract: for every `length ≥ 1` each of the three fixed-length
generators (full base62, digits-only, human-readable) returns a string of
exactly `length` characters. -/
theorem fixed_length_contract (now length : Nat) (h : 1 ≤ length) (p : PseudoRandom) :
    (random_string now length p).1.length = length ∧
    (random_number now length p).1.length = length ∧
    (human_random_string now length p).1.length = length :=
  ⟨random_string_length now length p, random_number_length now length p,
    human_random_string_length now length p⟩

theorem fixed_length_contract_check :
    (random_string 0 3 ⟨1, 2, 3, 4⟩).1.length = 3 ∧
    (random_number 0 3 ⟨1, 2, 3, 4⟩).1.length = 3 ∧
    (human_random_string 0 3 ⟨1, 2, 3, 4⟩).1.length = 3 :=
  fixed_length_contract 0 3 (by decide) ⟨1, 2, 3, 4⟩

/-- C10: strict exclusivity of the bound: for every bound `≥ 1` the integer
encoded by `random_max_size` is strictly below the bound, so `next_u16` never
issues a string decoding to `65535`, and the 32-bit and 64-bit variants never issue
their respective maxima. -/
theorem bounded_strictly_below (now fuel : Nat) (u : UidStore) (p : PseudoRandom) :
    (∀ m q, 1 ≤ m →
      ∃ v, uid_to_number (random_max_size now m q).1 = some v ∧ v < m) ∧
    (∀ res, UidStore.next_u16 now fuel u p = some res →
      uid_to_number res.1 ≠ some 65535) ∧
    (∀ res, UidStore.next_u32 now fuel u p = some res →
      uid_to_number res.1 ≠ some 4294967295) ∧
    (∀ res, UidStore.next_u64 now fuel u p = some res →
      uid_to_number res.1 ≠ some 18446744073709551615) := by
  refine ⟨?_, ?_, ?_, ?_⟩
  · intro m q hm
    exact random_max_size_decode now m hm q
  · intro res h
    obtain ⟨v, hv, hlt⟩ := issueLoop_decode_bound now fuel 65535 (by decide) u p res h
    rw [hv]
    intro contra
    have := Option.some.inj contra
    omega
  · intro res h
    obtain ⟨v, hv, hlt⟩ := issueLoop_decode_bound now fuel 4294967295 (by decide) u p res h
    rw [hv]
    intro contra
    have := Option.some.inj contra
    omega
  · intro res h
    obtain ⟨v, hv, hlt⟩ :=
      issueLoop_decode_bound now fuel 18446744073709551615 (by decide) u p res h
    rw [hv]
    intro contra
    have := Option.some.inj contra
    omega

theorem bounded_strictly_below_check :
    (∃ v, uid_to_number (random_max_size 0 10 ⟨1, 2, 3, 4⟩).1 = some v ∧ v < 10) ∧
    uid_to_number "A" ≠ some 65535 := by
  have h := bounded_strictly_below 0 5 UidStore.new ⟨1, 2, 3, 4⟩
  exact ⟨h.1 10 ⟨1, 2, 3, 4⟩ (by decide),
    h.2.1 ("A", ⟨insert "A" ∅⟩, ⟨7, 0, 262146, 211106232532992⟩) (by decide)⟩

